import Mathlib

/-!
Verification of the curl-mcp server (src/index.ts).

The file shallowly embeds the two tool handlers of the server:

* the `curl` tool (request-option construction, transport outcome
  classification, JSON-or-raw-text body normalization), and
* the `parse-json` tool (JSON parsing, dotted-path traversal over the
  parsed value, result serialization).

The host capabilities the handlers call (`JSON.parse`, `JSON.stringify`,
`String(...)`, `path.split(".")`, property access `value[key]`, and the
HTTP transport of node-fetch) are external collaborators of the
repository; they are modelled here as executable Lean functions over a
tagged-union JSON value model.  JavaScript numbers are modelled as
integers; `\u` string escapes and floating point literals are outside
the model.  All parsing functions are structurally recursive (fuel
based) so that concrete runs reduce inside the kernel.
-/

namespace CurlMcp

/-- The tagged-union JSON value model (spec section 9): the value tree
produced by the JSON parser capability.  Numbers are modelled as
integers. -/
inductive Json where
  | null
  | bool (b : Bool)
  | num (n : Int)
  | str (s : String)
  | arr (elems : List Json)
  | obj (fields : List (String × Json))

/-- A JavaScript value slot during path traversal: either a JSON value
or the distinguished `undefined` (absence), which property access on a
missing key produces. -/
inductive JsVal where
  | undefined
  | val (j : Json)

/- ## Character and digit helpers (host number formatting) -/

/-- Numeric value of a decimal digit character. -/
def digitVal (c : Char) : Nat := c.toNat - 48

/-- Decimal digit characters of a positive natural, most significant
first; `fuel` bounds the recursion depth. -/
def natCharsAux (fuel : Nat) (n : Nat) : List Char :=
  match fuel with
  | 0 => []
  | fuel + 1 =>
    if n = 0 then [] else natCharsAux fuel (n / 10) ++ [Nat.digitChar (n % 10)]

/-- Decimal representation of a natural number, as the host prints it. -/
def natChars (n : Nat) : List Char :=
  if n = 0 then ['0'] else natCharsAux (n + 1) n

/-- Decimal representation of an integer, as the host prints it. -/
def intChars (n : Int) : List Char :=
  if n < 0 then '-' :: natChars n.natAbs else natChars n.natAbs

/-- Value of a list of decimal digit characters (Horner evaluation). -/
def parseDigits (cs : List Char) : Nat :=
  cs.foldl (fun a c => a * 10 + digitVal c) 0

/-- The left brace character, `\x7b`. -/
def braceL : Char := Char.ofNat 123

/-- The right brace character, `\x7d`. -/
def braceR : Char := Char.ofNat 125

/-- Skip JSON insignificant whitespace (space, newline, tab, carriage
return). -/
def skipWs : List Char → List Char
  | [] => []
  | c :: cs => if c = ' ' ∨ c = '\n' ∨ c = '\t' ∨ c = '\r' then skipWs cs else c :: cs

/- ## Model of the JSON.stringify capability -/

/-- Escape one character for a JSON string literal.  Quote, backslash
and the common control characters are escaped; other characters are
emitted verbatim. -/
def escChar (c : Char) : List Char :=
  if c = '"' then ['\\', '"']
  else if c = '\\' then ['\\', '\\']
  else if c = '\n' then ['\\', 'n']
  else if c = '\r' then ['\\', 'r']
  else if c = '\t' then ['\\', 't']
  else [c]

/-- Escape a character sequence for a JSON string literal. -/
def escStr : List Char → List Char
  | [] => []
  | c :: cs => escChar c ++ escStr cs

/-- A quoted, escaped JSON string literal. -/
def quoteChars (s : String) : List Char :=
  '"' :: (escStr s.data ++ ['"'])

/-- The two-space indentation step of `JSON.stringify(v, null, 2)`. -/
def gap : List Char := [' ', ' ']

mutual

/-- Characters of `JSON.stringify(v, null, 2)` at current indentation
`ind` (a run of spaces). -/
def jChars (ind : List Char) : Json → List Char
  | .null => 'n' :: ['u', 'l', 'l']
  | .bool true => 't' :: ['r', 'u', 'e']
  | .bool false => 'f' :: ['a', 'l', 's', 'e']
  | .num n => intChars n
  | .str s => quoteChars s
  | .arr [] => ['[', ']']
  | .arr (x :: xs) =>
      '[' :: '\n' :: ((ind ++ gap) ++ (jChars (ind ++ gap) x ++
        (itemsChars (ind ++ gap) xs ++ ('\n' :: (ind ++ [']'])))))
  | .obj [] => [braceL, braceR]
  | .obj (p :: ps) =>
      braceL :: '\n' :: ((ind ++ gap) ++ (memberChars (ind ++ gap) p ++
        (membersChars (ind ++ gap) ps ++ ('\n' :: (ind ++ [braceR])))))

/-- Characters of one pretty-printed object member. -/
def memberChars (ind : List Char) : String × Json → List Char
  | (k, v) => quoteChars k ++ (':' :: ' ' :: jChars ind v)

/-- Characters of the remaining pretty-printed array elements, each
preceded by a comma, newline and indentation. -/
def itemsChars (ind : List Char) : List Json → List Char
  | [] => []
  | x :: xs => ',' :: '\n' :: (ind ++ (jChars ind x ++ itemsChars ind xs))

/-- Characters of the remaining pretty-printed object members. -/
def membersChars (ind : List Char) : List (String × Json) → List Char
  | [] => []
  | p :: ps => ',' :: '\n' :: (ind ++ (memberChars ind p ++ membersChars ind ps))

end

/-- `JSON.stringify(v, null, 2)`: the pretty multi-space-indented
serialization used for response bodies and extraction results. -/
def stringify2 (v : Json) : String := String.mk (jChars [] v)

mutual

/-- Characters of single-argument `JSON.stringify(v)` (compact form,
used for non-string request bodies). -/
def cChars : Json → List Char
  | .null => 'n' :: ['u', 'l', 'l']
  | .bool true => 't' :: ['r', 'u', 'e']
  | .bool false => 'f' :: ['a', 'l', 's', 'e']
  | .num n => intChars n
  | .str s => quoteChars s
  | .arr [] => ['[', ']']
  | .arr (x :: xs) => '[' :: (cChars x ++ (cItems xs ++ [']']))
  | .obj [] => [braceL, braceR]
  | .obj (p :: ps) => braceL :: (cMember p ++ (cMembers ps ++ [braceR]))

/-- Characters of one compact object member. -/
def cMember : String × Json → List Char
  | (k, v) => quoteChars k ++ (':' :: cChars v)

/-- Characters of the remaining compact array elements. -/
def cItems : List Json → List Char
  | [] => []
  | x :: xs => ',' :: (cChars x ++ cItems xs)

/-- Characters of the remaining compact object members. -/
def cMembers : List (String × Json) → List Char
  | [] => []
  | p :: ps => ',' :: (cMember p ++ cMembers ps)

end

/-- Single-argument `JSON.stringify(v)`. -/
def stringifyCompact (v : Json) : String := String.mk (cChars v)

/- ## Model of the JSON.parse capability -/

/-- Unescape the character following a backslash in a JSON string
literal (`\u` escapes are outside the model). -/
def unescChar (c : Char) : Option Char :=
  if c = '"' then some '"'
  else if c = '\\' then some '\\'
  else if c = '/' then some '/'
  else if c = 'n' then some '\n'
  else if c = 'r' then some '\r'
  else if c = 't' then some '\t'
  else if c = 'b' then some (Char.ofNat 8)
  else if c = 'f' then some (Char.ofNat 12)
  else none

/-- Scan the body of a JSON string literal after the opening quote,
returning the unescaped characters and the input after the closing
quote. -/
def parseStrBody : List Char → Except String (List Char × List Char)
  | [] => .error "Unterminated string in JSON"
  | c :: cs =>
    if c = '"' then .ok ([], cs)
    else if c = '\\' then
      match cs with
      | [] => .error "Unterminated string in JSON"
      | e :: cs2 =>
        match unescChar e with
        | none => .error "Bad escaped character in JSON"
        | some u =>
          match parseStrBody cs2 with
          | .error m => .error m
          | .ok (l, r) => .ok (u :: l, r)
    else
      match parseStrBody cs with
      | .error m => .error m
      | .ok (l, r) => .ok (c :: l, r)

/-- Match an exact token tail, returning the rest of the input. -/
def stripTok : List Char → List Char → Option (List Char)
  | [], cs => some cs
  | _ :: _, [] => none
  | t :: ts, c :: cs => if c = t then stripTok ts cs else none

/-- Parsing mode of the recursive descent: a single value, the elements
of a non-empty array, or the members of a non-empty object. -/
inductive PMode where
  | top
  | elems
  | fields

/-- Output of one recursive-descent step, matching the mode. -/
inductive POut where
  | one (j : Json)
  | many (xs : List Json)
  | pairs (ps : List (String × Json))

/-- The recursive descent of the JSON.parse capability.  `fuel` bounds
the recursion depth (structural recursion, so concrete runs reduce in
the kernel).  In `.top` mode the input must start at the first
character of a value; `.elems` and `.fields` modes parse the inside of
an array or object starting at the first element or key. -/
def parseF : Nat → PMode → List Char → Except String (POut × List Char)
  | 0, _, _ => .error "Too much nesting in JSON"
  | fuel + 1, .top, cs =>
    match cs with
    | [] => .error "Unexpected end of JSON input"
    | c :: cs1 =>
      if c = 'n' then
        match stripTok ['u', 'l', 'l'] cs1 with
        | some r => .ok (.one .null, r)
        | none => .error "Unexpected token in JSON"
      else if c = 't' then
        match stripTok ['r', 'u', 'e'] cs1 with
        | some r => .ok (.one (.bool true), r)
        | none => .error "Unexpected token in JSON"
      else if c = 'f' then
        match stripTok ['a', 'l', 's', 'e'] cs1 with
        | some r => .ok (.one (.bool false), r)
        | none => .error "Unexpected token in JSON"
      else if c = '"' then
        match parseStrBody cs1 with
        | .error e => .error e
        | .ok (l, r) => .ok (.one (.str (String.mk l)), r)
      else if c = '[' then
        match skipWs cs1 with
        | [] => .error "Unexpected end of JSON input"
        | c2 :: cs2 =>
          if c2 = ']' then .ok (.one (.arr []), cs2)
          else
            match parseF fuel .elems (c2 :: cs2) with
            | .error e => .error e
            | .ok (.many xs, r) => .ok (.one (.arr xs), r)
            | .ok _ => .error "Unexpected token in JSON"
      else if c = braceL then
        match skipWs cs1 with
        | [] => .error "Unexpected end of JSON input"
        | c2 :: cs2 =>
          if c2 = braceR then .ok (.one (.obj []), cs2)
          else
            match parseF fuel .fields (c2 :: cs2) with
            | .error e => .error e
            | .ok (.pairs ps, r) => .ok (.one (.obj ps), r)
            | .ok _ => .error "Unexpected token in JSON"
      else if c = '-' then
        match List.takeWhile Char.isDigit cs1 with
        | [] => .error "Unexpected token in JSON"
        | d :: ds =>
          .ok (.one (.num (-(parseDigits (d :: ds) : Int))),
               List.dropWhile Char.isDigit cs1)
      else if c.isDigit then
        .ok (.one (.num (parseDigits (List.takeWhile Char.isDigit (c :: cs1)) : Int)),
             List.dropWhile Char.isDigit (c :: cs1))
      else .error "Unexpected token in JSON"
  | fuel + 1, .elems, cs =>
    match parseF fuel .top cs with
    | .error e => .error e
    | .ok (.one v, r) =>
      (match skipWs r with
       | [] => .error "Unexpected end of JSON input"
       | c2 :: cs2 =>
         if c2 = ',' then
           match parseF fuel .elems (skipWs cs2) with
           | .error e => .error e
           | .ok (.many xs, r2) => .ok (.many (v :: xs), r2)
           | .ok _ => .error "Unexpected token in JSON"
         else if c2 = ']' then .ok (.many [v], cs2)
         else .error "Expected comma or closing bracket in JSON")
    | .ok _ => .error "Unexpected token in JSON"
  | fuel + 1, .fields, cs =>
    match cs with
    | [] => .error "Unexpected end of JSON input"
    | c :: cs1 =>
      if c = '"' then
        match parseStrBody cs1 with
        | .error e => .error e
        | .ok (kl, r1) =>
          match skipWs r1 with
          | [] => .error "Unexpected end of JSON input"
          | c2 :: cs2 =>
            if c2 = ':' then
              match parseF fuel .top (skipWs cs2) with
              | .error e => .error e
              | .ok (.one v, r2) =>
                (match skipWs r2 with
                 | [] => .error "Unexpected end of JSON input"
                 | c3 :: cs3 =>
                   if c3 = ',' then
                     match parseF fuel .fields (skipWs cs3) with
                     | .error e => .error e
                     | .ok (.pairs ps, r3) => .ok (.pairs ((String.mk kl, v) :: ps), r3)
                     | .ok _ => .error "Unexpected token in JSON"
                   else if c3 = braceR then .ok (.pairs [(String.mk kl, v)], cs3)
                   else .error "Expected comma or closing brace in JSON")
              | .ok _ => .error "Unexpected token in JSON"
            else .error "Expected colon after key in JSON"
      else .error "Expected string key in JSON"

/-- `JSON.parse(s)`: parse a complete JSON document, requiring only
whitespace after the value. -/
def parseJsonStr (s : String) : Except String Json :=
  match parseF (s.data.length + 1) .top (skipWs s.data) with
  | .error e => .error e
  | .ok (.one v, r) =>
    (match skipWs r with
     | [] => .ok v
     | _ :: _ => .error "Unexpected non-whitespace character after JSON data")
  | .ok _ => .error "Unexpected token in JSON"

/- ## Model of the String(...) conversion capability -/

mutual

/-- Characters of the host `String(v)` conversion of a JSON value:
`null` and booleans by keyword, numbers in decimal, strings verbatim,
arrays joined by commas (null elements becoming empty, as the host
array join does), objects as the object tag. -/
def jsPlainChars : Json → List Char
  | .null => 'n' :: ['u', 'l', 'l']
  | .bool true => 't' :: ['r', 'u', 'e']
  | .bool false => 'f' :: ['a', 'l', 's', 'e']
  | .num n => intChars n
  | .str s => s.data
  | .arr [] => []
  | .arr (x :: xs) => jsJoinHead x ++ jsJoinTail xs
  | .obj _ => "[object Object]".data

/-- One joined array element of `String(array)`. -/
def jsJoinHead : Json → List Char
  | .null => []
  | j => jsPlainChars j

/-- The remaining joined array elements of `String(array)`. -/
def jsJoinTail : List Json → List Char
  | [] => []
  | x :: xs => ',' :: (jsJoinHead x ++ jsJoinTail xs)

end

/-- The host `String(v)` conversion applied to a traversal result
(`String(undefined)` is the text undefined). -/
def jsToString : JsVal → String
  | .undefined => "undefined"
  | .val j => String.mk (jsPlainChars j)

/-- The host `typeof v` operator on a traversal result; note that
`typeof null` is the string object. -/
def jsTypeof : JsVal → String
  | .undefined => "undefined"
  | .val Json.null => "object"
  | .val (Json.bool _) => "boolean"
  | .val (Json.num _) => "number"
  | .val (Json.str _) => "string"
  | .val (Json.arr _) => "object"
  | .val (Json.obj _) => "object"

/- ## Model of host property access and the path traversal loop -/

/-- Look a key up in an object field list (textual insertion order);
a missing key reads as `undefined`. -/
def lookupField : List (String × Json) → String → JsVal
  | [], _ => .undefined
  | (k, v) :: fs, key => if k = key then .val v else lookupField fs key

/-- Interpret a property key as a canonical array index (decimal
digits with no leading zero), as host arrays do. -/
def parseIndex (s : String) : Option Nat :=
  match s.data with
  | [] => none
  | c :: cs =>
    if (c :: cs).all Char.isDigit then
      if natChars (parseDigits (c :: cs)) = c :: cs then some (parseDigits (c :: cs))
      else none
    else none

/-- Host property read `j[key]` on the JSON value model: object key
lookup and array numeric indexing; every other read (scalar receivers,
missing keys, out-of-range indices) yields absence.  Host-object
prototype members and string character access are outside the JSON
value model, per the tagged-union design note of the spec. -/
def getProp (j : Json) (key : String) : JsVal :=
  match j with
  | .obj fs => lookupField fs key
  | .arr xs =>
    (match parseIndex key with
     | some i =>
       (match xs.get? i with
        | some e => .val e
        | none => .undefined)
     | none => .undefined)
  | _ => .undefined

/-- The throwing host expression `result[part]`: property access on
`null` or `undefined` raises a TypeError, which the embedding returns
in the error component; on any other value it is `getProp`. -/
def jsIndexE : JsVal → String → Except String JsVal
  | .undefined, part => .error ("Cannot read properties of undefined (reading " ++ part ++ ")")
  | .val j, part =>
    match j with
    | Json.null => .error ("Cannot read properties of null (reading " ++ part ++ ")")
    | _ => .ok (getProp j part)

/-- The traversal loop of the parse-json handler: for each path part,
break without error when the current value is `null` or `undefined`,
otherwise index into the current value. -/
def traverseLoop : JsVal → List String → Except String JsVal
  | r, [] => .ok r
  | r, part :: rest =>
    match r with
    | .undefined => .ok .undefined
    | .val Json.null => .ok (.val Json.null)
    | _ =>
      match jsIndexE r part with
      | .error e => .error e
      | .ok r2 => traverseLoop r2 rest

/-- Splitting accumulator for the host `path.split(".")`. -/
def splitDotAux : List Char → List Char → List String
  | [], acc => [String.mk acc.reverse]
  | c :: cs, acc =>
    if c = '.' then String.mk acc.reverse :: splitDotAux cs [] else splitDotAux cs (c :: acc)

/-- The host `path.split(".")`: dot-separated segments, keeping empty
segments. -/
def jsSplitDot (s : String) : List String := splitDotAux s.data []

/- ## The parse-json tool handler -/

/-- The uniform tool envelope: success content text, or the error flag
with a message text. -/
inductive ToolResult where
  | ok (text : String)
  | err (text : String)

/-- Serialization of the final extraction result: pretty JSON when
`typeof` is object, host string conversion otherwise. -/
def serializeResult (r : JsVal) : String :=
  match r with
  | .undefined => jsToString .undefined
  | .val j => if jsTypeof (.val j) = "object" then stringify2 j else jsToString (.val j)

/-- The parse-json tool handler: parse the document, optionally
traverse a truthy dotted path (catching traversal faults), serialize
the result; a parse failure aborts with the parser message and no
traversal. -/
def parseJsonTool (json : String) (path : Option String) : ToolResult :=
  match parseJsonStr json with
  | .error e => .err ("Error parsing JSON: " ++ e)
  | .ok data =>
    match path with
    | some p =>
      if p = "" then .ok (serializeResult (.val data))
      else
        match traverseLoop (.val data) (jsSplitDot p) with
        | .error e => .err ("Error extracting data with path \"" ++ p ++ "\": " ++ e)
        | .ok r => .ok (serializeResult r)
    | none => .ok (serializeResult (.val data))

/- ## The curl tool handler -/

/-- The five-member HTTP method enumeration. -/
inductive HttpMethod where
  | GET
  | POST
  | PUT
  | DELETE
  | PATCH
deriving DecidableEq

/-- The validated input of the curl tool; `none` for `headers` or
`body` is an omitted (undefined) field, while `some Json.null` is a
supplied JSON null body. -/
structure CurlRequest where
  url : String
  method : HttpMethod
  headers : Option (List (String × String))
  body : Option Json
  timeout : Nat

/-- The two-entry default header map substituted when the caller
supplies none. -/
def defaultHeaders : List (String × String) :=
  [("Content-Type", "application/json"), ("Accept", "application/json")]

/-- The outbound request options handed to the transport capability. -/
structure RequestOptions where
  method : HttpMethod
  headers : List (String × String)
  timeout : Nat
  body : Option String

/-- Body encoding: a string body passes through unchanged, any other
body is serialized with single-argument `JSON.stringify`. -/
def encodeBody (b : Json) : String :=
  match b with
  | .str s => s
  | _ => stringifyCompact b

/-- Construction of the outbound request options: caller headers
verbatim or the two-entry default, and a body attached only for
non-GET methods when one was supplied. -/
def buildOptions (req : CurlRequest) : RequestOptions :=
  let options : RequestOptions :=
    { method := req.method
      headers :=
        match req.headers with
        | some h => h
        | none => defaultHeaders
      timeout := req.timeout
      body := none }
  match req.body with
  | some b =>
    if req.method = HttpMethod.GET then options
    else { options with body := some (encodeBody b) }
  | none => options

/-- Modelled from the spec: the HTTP transport capability (node-fetch
and the network, external to the repository) either succeeds with
status, status text, response headers and a raw text body readable by
both the JSON and the text readers, or fails with a transport error
message.  The spec treats this collaborator as a given capability
returning status, headers and raw body, or failing with a network
error. -/
structure TransportResponse where
  status : Nat
  statusText : String
  headers : List (String × String)
  bodyText : String

/-- Modelled from the spec: the outcome of the awaited transport call,
either a transport-level success (any HTTP status) or a thrown
transport failure carrying its message. -/
inductive TransportOutcome where
  | success (resp : TransportResponse)
  | failure (message : String)

/-- The response envelope of the curl tool. -/
structure CurlResponse where
  status : Nat
  statusText : String
  headers : List (String × String)
  data : String

/-- The result of one curl tool invocation: the response envelope, or
the failure envelope text. -/
inductive CurlResult where
  | success (resp : CurlResponse)
  | failure (message : String)

/-- The curl tool handler applied to the outcome of the transport
call: on success, try the body as JSON and pretty-print it, falling
back to the raw text; populate status, status text and headers
unconditionally.  On a transport failure, produce the failure envelope
and no response envelope. -/
def curlHandler (_req : CurlRequest) (outcome : TransportOutcome) : CurlResult :=
  match outcome with
  | .failure msg => .failure ("Error making request: " ++ msg)
  | .success resp =>
    let responseText :=
      match parseJsonStr resp.bodyText with
      | .ok v => stringify2 v
      | .error _ => resp.bodyText
    .success
      { status := resp.status
        statusText := resp.statusText
        headers := resp.headers
        data := responseText }

/-- The whole curl tool: build the outbound options from the request,
run the transport capability on them, classify the outcome. -/
def curlTool (req : CurlRequest) (transport : RequestOptions → TransportOutcome) : CurlResult :=
  curlHandler req (transport (buildOptions req))

/- ## Helper lemmas: digits and number formatting -/

theorem stringMk_data (s : String) : String.mk s.data = s := rfl

theorem digitChar_isDigit (d : Nat) (h : d < 10) : (Nat.digitChar d).isDigit = true := by
  interval_cases d <;> decide

theorem digitVal_digitChar (d : Nat) (h : d < 10) : digitVal (Nat.digitChar d) = d := by
  interval_cases d <;> decide

theorem natCharsAux_all_digits :
    ∀ fuel n, ∀ c ∈ natCharsAux fuel n, c.isDigit = true := by
  intro fuel
  induction fuel with
  | zero => intro n c hc; simp [natCharsAux] at hc
  | succ f ih =>
    intro n c hc
    by_cases hn : n = 0
    · simp [natCharsAux, hn] at hc
    · simp only [natCharsAux, if_neg hn, List.mem_append, List.mem_singleton] at hc
      rcases hc with hc | hc
      · exact ih _ c hc
      · subst hc
        exact digitChar_isDigit _ (Nat.mod_lt _ (by norm_num))

theorem parseDigits_append_one (l : List Char) (c : Char) :
    parseDigits (l ++ [c]) = parseDigits l * 10 + digitVal c := by
  simp [parseDigits, List.foldl_append]

theorem parseDigits_natCharsAux :
    ∀ fuel n, n < fuel → parseDigits (natCharsAux fuel n) = n := by
  intro fuel
  induction fuel with
  | zero => intro n h; omega
  | succ f ih =>
    intro n h
    by_cases hn : n = 0
    · simp [natCharsAux, hn, parseDigits]
    · have hdiv : n / 10 < n := Nat.div_lt_self (by omega) (by norm_num)
      rw [natCharsAux, if_neg hn, parseDigits_append_one, ih _ (by omega),
        digitVal_digitChar _ (Nat.mod_lt _ (by norm_num))]
      omega

theorem natCharsAux_ne_nil (fuel n : Nat) (hn : n ≠ 0) (h : n < fuel) :
    natCharsAux fuel n ≠ [] := by
  match fuel with
  | 0 => omega
  | f + 1 =>
    rw [natCharsAux, if_neg hn]
    simp

theorem natChars_all_digits (n : Nat) : ∀ c ∈ natChars n, c.isDigit = true := by
  intro c hc
  by_cases hn : n = 0
  · simp [natChars, hn] at hc
    subst hc; decide
  · rw [natChars, if_neg hn] at hc
    exact natCharsAux_all_digits _ _ c hc

theorem parseDigits_natChars (n : Nat) : parseDigits (natChars n) = n := by
  by_cases hn : n = 0
  · simp [natChars, hn, parseDigits, digitVal]
  · rw [natChars, if_neg hn]
    exact parseDigits_natCharsAux _ _ (by omega)

theorem natChars_ne_nil (n : Nat) : natChars n ≠ [] := by
  by_cases hn : n = 0
  · simp [natChars, hn]
  · rw [natChars, if_neg hn]
    exact natCharsAux_ne_nil _ _ hn (by omega)

/- ## Helper lemmas: whitespace and token heads -/

/-- The input does not start with a decimal digit (so a preceding
number token cannot absorb it). -/
def noDigitHead : List Char → Prop
  | [] => True
  | c :: _ => c.isDigit = false

/-- A run of plain spaces (indentation). -/
def spacesOnly (l : List Char) : Prop := ∀ c ∈ l, c = ' '

theorem spacesOnly_nil : spacesOnly [] := by
  intro c hc; simp at hc

theorem spacesOnly_append {l r : List Char} (hl : spacesOnly l) (hr : spacesOnly r) :
    spacesOnly (l ++ r) := by
  intro c hc
  rcases List.mem_append.mp hc with h | h
  · exact hl c h
  · exact hr c h

theorem spacesOnly_gap : spacesOnly gap := by
  intro c hc
  simp only [gap, List.mem_cons, List.not_mem_nil, or_false] at hc
  rcases hc with rfl | rfl <;> rfl

theorem skipWs_append_spaces {l : List Char} (r : List Char) (hl : spacesOnly l) :
    skipWs (l ++ r) = skipWs r := by
  induction l with
  | nil => rfl
  | cons c cs ih =>
    have hc : c = ' ' := hl c (List.mem_cons_self c cs)
    subst hc
    rw [List.cons_append, skipWs, if_pos (Or.inl rfl)]
    exact ih fun c hc => hl c (List.mem_cons_of_mem _ hc)

theorem skipWs_newline (r : List Char) : skipWs ('\n' :: r) = skipWs r := by
  rw [skipWs, if_pos (Or.inr (Or.inl rfl))]

theorem skipWs_space (r : List Char) : skipWs (' ' :: r) = skipWs r := by
  rw [skipWs, if_pos (Or.inl rfl)]

theorem skipWs_cons_nonWs {c : Char} (r : List Char)
    (h : ¬(c = ' ' ∨ c = '\n' ∨ c = '\t' ∨ c = '\r')) : skipWs (c :: r) = c :: r := by
  rw [skipWs, if_neg h]

/-- The characters a serialized JSON value can start with. -/
def startTok (c : Char) : Prop :=
  c = 'n' ∨ c = 't' ∨ c = 'f' ∨ c = '"' ∨ c = '[' ∨ c = braceL ∨ c = '-' ∨ c.isDigit = true

theorem startTok_not_ws {c : Char} (h : startTok c) :
    ¬(c = ' ' ∨ c = '\n' ∨ c = '\t' ∨ c = '\r') := by
  rcases h with h | h | h | h | h | h | h | h <;>
    first
    | (subst h; decide)
    | (rintro (rfl | rfl | rfl | rfl) <;> exact absurd h (by decide))

theorem startTok_ne_rbracket {c : Char} (h : startTok c) : ¬(c = ']') := by
  rcases h with h | h | h | h | h | h | h | h <;>
    first
    | (subst h; decide)
    | (rintro rfl; exact absurd h (by decide))

theorem startTok_ne_rbrace {c : Char} (h : startTok c) : ¬(c = braceR) := by
  rcases h with h | h | h | h | h | h | h | h <;>
    first
    | (subst h; decide)
    | (rintro rfl; exact absurd h (by decide))

theorem startTok_not_digit_head {c : Char} (t : List Char) (h : c.isDigit = false) :
    noDigitHead (c :: t) := h

theorem takeWhile_digits :
    ∀ l r : List Char, (∀ c ∈ l, c.isDigit = true) → noDigitHead r →
      List.takeWhile Char.isDigit (l ++ r) = l ∧
      List.dropWhile Char.isDigit (l ++ r) = r := by
  intro l
  induction l with
  | nil =>
    intro r _ hr
    cases r with
    | nil => exact ⟨rfl, rfl⟩
    | cons c cs =>
      have hc : c.isDigit = false := hr
      constructor
      · simp [List.takeWhile_cons, hc]
      · simp [List.dropWhile_cons, hc]
  | cons c cs ih =>
    intro r hl hr
    have hc : c.isDigit = true := hl c (List.mem_cons_self c cs)
    have hrest := ih r (fun x hx => hl x (List.mem_cons_of_mem _ hx)) hr
    constructor
    · simp [List.cons_append, List.takeWhile_cons, hc, hrest.1]
    · simp [List.cons_append, List.dropWhile_cons, hc, hrest.2]

/- ## Helper lemmas: string literal round trip -/

theorem parseStrBody_escStr :
    ∀ l r : List Char, parseStrBody (escStr l ++ ('"' :: r)) = .ok (l, r) := by
  intro l
  induction l with
  | nil =>
    intro r
    rw [escStr, List.nil_append, parseStrBody.eq_def]
    simp
  | cons c cs ih =>
    intro r
    rw [escStr, List.append_assoc]
    by_cases h1 : c = '"'
    · subst h1
      simp only [escChar, if_pos rfl, List.cons_append, List.nil_append]
      rw [parseStrBody.eq_def]
      simp [unescChar, ih r]
    · by_cases h2 : c = '\\'
      · subst h2
        simp only [escChar, if_neg (by decide : ¬('\\' = '"')), if_pos rfl,
          List.cons_append, List.nil_append]
        rw [parseStrBody.eq_def]
        simp [unescChar, ih r]
      · by_cases h3 : c = '\n'
        · subst h3
          simp only [escChar, if_neg (by decide : ¬('\n' = '"')),
            if_neg (by decide : ¬('\n' = '\\')), if_pos rfl,
            List.cons_append, List.nil_append]
          rw [parseStrBody.eq_def]
          simp [unescChar, ih r]
        · by_cases h4 : c = '\r'
          · subst h4
            simp only [escChar, if_neg (by decide : ¬('\r' = '"')),
              if_neg (by decide : ¬('\r' = '\\')), if_neg (by decide : ¬('\r' = '\n')),
              if_pos rfl, List.cons_append, List.nil_append]
            rw [parseStrBody.eq_def]
            simp [unescChar, ih r]
          · by_cases h5 : c = '\t'
            · subst h5
              simp only [escChar, if_neg (by decide : ¬('\t' = '"')),
                if_neg (by decide : ¬('\t' = '\\')), if_neg (by decide : ¬('\t' = '\n')),
                if_neg (by decide : ¬('\t' = '\r')), if_pos rfl,
                List.cons_append, List.nil_append]
              rw [parseStrBody.eq_def]
              simp [unescChar, ih r]
            · simp only [escChar, if_neg h1, if_neg h2, if_neg h3, if_neg h4, if_neg h5,
                List.cons_append, List.nil_append]
              rw [parseStrBody.eq_def]
              simp [h1, h2, ih r]

/- ## Helper lemmas: serialized values start with a token character -/

theorem natChars_head (n : Nat) :
    ∃ c t, natChars n = c :: t ∧ c.isDigit = true := by
  obtain ⟨c, t, hct⟩ := List.exists_cons_of_ne_nil (natChars_ne_nil n)
  refine ⟨c, t, hct, natChars_all_digits n c ?_⟩
  rw [hct]
  exact List.mem_cons_self c t

theorem jChars_head (ind : List Char) (v : Json) :
    ∃ c t, jChars ind v = c :: t ∧ startTok c := by
  cases v with
  | null => exact ⟨'n', ['u', 'l', 'l'], by simp [jChars], Or.inl rfl⟩
  | bool b =>
    cases b with
    | true => exact ⟨'t', ['r', 'u', 'e'], by simp [jChars], Or.inr (Or.inl rfl)⟩
    | false => exact ⟨'f', ['a', 'l', 's', 'e'], by simp [jChars], Or.inr (Or.inr (Or.inl rfl))⟩
  | num n =>
    by_cases hn : n < 0
    · refine ⟨'-', natChars n.natAbs, ?_, ?_⟩
      · simp [jChars, intChars, if_pos hn]
      · exact Or.inr (Or.inr (Or.inr (Or.inr (Or.inr (Or.inr (Or.inl rfl))))))
    · obtain ⟨c, t, hct, hc⟩ := natChars_head n.natAbs
      refine ⟨c, t, ?_, ?_⟩
      · simp [jChars, intChars, if_neg hn, hct]
      · exact Or.inr (Or.inr (Or.inr (Or.inr (Or.inr (Or.inr (Or.inr hc))))))
  | str s =>
    exact ⟨'"', escStr s.data ++ ['"'], by simp [jChars, quoteChars],
      Or.inr (Or.inr (Or.inr (Or.inl rfl)))⟩
  | arr xs =>
    cases xs with
    | nil =>
      exact ⟨'[', [']'], by simp [jChars], Or.inr (Or.inr (Or.inr (Or.inr (Or.inl rfl))))⟩
    | cons x xs =>
      exact ⟨'[', '\n' :: ((ind ++ gap) ++ (jChars (ind ++ gap) x ++
          (itemsChars (ind ++ gap) xs ++ ('\n' :: (ind ++ [']']))))),
        by simp [jChars], Or.inr (Or.inr (Or.inr (Or.inr (Or.inl rfl))))⟩
  | obj ps =>
    cases ps with
    | nil =>
      exact ⟨braceL, [braceR], by simp [jChars],
        Or.inr (Or.inr (Or.inr (Or.inr (Or.inr (Or.inl rfl)))))⟩
    | cons p ps =>
      exact ⟨braceL, '\n' :: ((ind ++ gap) ++ (memberChars (ind ++ gap) p ++
          (membersChars (ind ++ gap) ps ++ ('\n' :: (ind ++ [braceR]))))),
        by simp [jChars], Or.inr (Or.inr (Or.inr (Or.inr (Or.inr (Or.inl rfl)))))⟩

theorem jChars_ne_nil (ind : List Char) (v : Json) : jChars ind v ≠ [] := by
  obtain ⟨c, t, hct, _⟩ := jChars_head ind v
  rw [hct]
  simp

theorem jChars_length_pos (ind : List Char) (v : Json) : 1 ≤ (jChars ind v).length := by
  obtain ⟨c, t, hct, _⟩ := jChars_head ind v
  rw [hct]
  simp

theorem skipWs_jChars (ind : List Char) (v : Json) (r : List Char) :
    skipWs (jChars ind v ++ r) = jChars ind v ++ r := by
  obtain ⟨c, t, hct, hst⟩ := jChars_head ind v
  rw [hct, List.cons_append, skipWs_cons_nonWs _ (startTok_not_ws hst)]

theorem memberChars_eq (ind : List Char) (k : String) (v : Json) :
    memberChars ind (k, v) =
      '"' :: (escStr k.data ++ ('"' :: (':' :: (' ' :: jChars ind v)))) := by
  simp [memberChars, quoteChars]

/- ## Dispatch lemmas: one step of the recursive descent -/

theorem parseF_top_lbracket (f : Nat) (cs1 : List Char) : parseF (f + 1) .top ('[' :: cs1) =
    (match skipWs cs1 with
     | [] => .error "Unexpected end of JSON input"
     | c2 :: cs2 =>
       if c2 = ']' then .ok (.one (.arr []), cs2)
       else
         match parseF f .elems (c2 :: cs2) with
         | .error e => .error e
         | .ok (.many xs, r) => .ok (.one (.arr xs), r)
         | .ok _ => .error "Unexpected token in JSON") := rfl

theorem parseF_top_lbrace (f : Nat) (cs1 : List Char) : parseF (f + 1) .top (braceL :: cs1) =
    (match skipWs cs1 with
     | [] => .error "Unexpected end of JSON input"
     | c2 :: cs2 =>
       if c2 = braceR then .ok (.one (.obj []), cs2)
       else
         match parseF f .fields (c2 :: cs2) with
         | .error e => .error e
         | .ok (.pairs ps, r) => .ok (.one (.obj ps), r)
         | .ok _ => .error "Unexpected token in JSON") := rfl

theorem parseF_top_quote (f : Nat) (cs1 : List Char) : parseF (f + 1) .top ('"' :: cs1) =
    (match parseStrBody cs1 with
     | .error e => .error e
     | .ok (l, r) => .ok (.one (.str (String.mk l)), r)) := rfl

theorem parseF_top_minus (f : Nat) (cs1 : List Char) : parseF (f + 1) .top ('-' :: cs1) =
    (match List.takeWhile Char.isDigit cs1 with
     | [] => .error "Unexpected token in JSON"
     | d :: ds =>
       .ok (.one (.num (-(parseDigits (d :: ds) : Int))),
            List.dropWhile Char.isDigit cs1)) := rfl

theorem parseF_elems_unfold (f : Nat) (cs : List Char) : parseF (f + 1) .elems cs =
    (match parseF f .top cs with
     | .error e => .error e
     | .ok (.one v, r) =>
       (match skipWs r with
        | [] => .error "Unexpected end of JSON input"
        | c2 :: cs2 =>
          if c2 = ',' then
            match parseF f .elems (skipWs cs2) with
            | .error e => .error e
            | .ok (.many xs, r2) => .ok (.many (v :: xs), r2)
            | .ok _ => .error "Unexpected token in JSON"
          else if c2 = ']' then .ok (.many [v], cs2)
          else .error "Expected comma or closing bracket in JSON")
     | .ok _ => .error "Unexpected token in JSON") := rfl

theorem parseF_fields_quote (f : Nat) (cs1 : List Char) : parseF (f + 1) .fields ('"' :: cs1) =
    (match parseStrBody cs1 with
     | .error e => .error e
     | .ok (kl, r1) =>
       match skipWs r1 with
       | [] => .error "Unexpected end of JSON input"
       | c2 :: cs2 =>
         if c2 = ':' then
           match parseF f .top (skipWs cs2) with
           | .error e => .error e
           | .ok (.one v, r2) =>
             (match skipWs r2 with
              | [] => .error "Unexpected end of JSON input"
              | c3 :: cs3 =>
                if c3 = ',' then
                  match parseF f .fields (skipWs cs3) with
                  | .error e => .error e
                  | .ok (.pairs ps, r3) => .ok (.pairs ((String.mk kl, v) :: ps), r3)
                  | .ok _ => .error "Unexpected token in JSON"
                else if c3 = braceR then .ok (.pairs [(String.mk kl, v)], cs3)
                else .error "Expected comma or closing brace in JSON")
           | .ok _ => .error "Unexpected token in JSON"
         else .error "Expected colon after key in JSON") := rfl

theorem parseF_top_digit (f : Nat) (c : Char) (cs1 : List Char) (h : c.isDigit = true) :
    parseF (f + 1) .top (c :: cs1) =
      .ok (.one (.num (parseDigits (List.takeWhile Char.isDigit (c :: cs1)) : Int)),
           List.dropWhile Char.isDigit (c :: cs1)) := by
  have hn : ¬(c = 'n') := by rintro rfl; exact absurd h (by decide)
  have ht : ¬(c = 't') := by rintro rfl; exact absurd h (by decide)
  have hf : ¬(c = 'f') := by rintro rfl; exact absurd h (by decide)
  have hq : ¬(c = '"') := by rintro rfl; exact absurd h (by decide)
  have hlb : ¬(c = '[') := by rintro rfl; exact absurd h (by decide)
  have hbl : ¬(c = braceL) := by rintro rfl; exact absurd h (by decide)
  have hm : ¬(c = '-') := by rintro rfl; exact absurd h (by decide)
  rw [parseF.eq_def]
  simp [hn, ht, hf, hq, hlb, hbl, hm, h]

/- ## The pretty-print round trip -/

theorem parseF_roundTrip : ∀ fuel : Nat,
    (∀ (v : Json) (ind rest : List Char), spacesOnly ind → noDigitHead rest →
        (jChars ind v).length ≤ fuel →
        parseF fuel .top (jChars ind v ++ rest) = .ok (.one v, rest)) ∧
    (∀ (x : Json) (xs : List Json) (indE indC rest : List Char),
        spacesOnly indE → spacesOnly indC →
        (jChars indE x).length + (itemsChars indE xs).length < fuel →
        parseF fuel .elems
            (jChars indE x ++ (itemsChars indE xs ++ ('\n' :: (indC ++ (']' :: rest))))) =
          .ok (.many (x :: xs), rest)) ∧
    (∀ (k : String) (v : Json) (ps : List (String × Json)) (indE indC rest : List Char),
        spacesOnly indE → spacesOnly indC →
        (memberChars indE (k, v)).length + (membersChars indE ps).length < fuel →
        parseF fuel .fields
            (memberChars indE (k, v) ++
              (membersChars indE ps ++ ('\n' :: (indC ++ (braceR :: rest))))) =
          .ok (.pairs ((k, v) :: ps), rest)) := by
  intro fuel
  induction fuel with
  | zero =>
    refine ⟨?_, ?_, ?_⟩
    · intro v ind rest _ _ hlen
      have := jChars_length_pos ind v
      omega
    · intro x xs indE indC rest _ _ hlen
      omega
    · intro k v ps indE indC rest _ _ hlen
      omega
  | succ f ih =>
    obtain ⟨ihA, ihB, ihC⟩ := ih
    refine ⟨?_, ?_, ?_⟩
    · -- a single serialized value followed by a non-digit remainder
      intro v ind rest hind hnd hlen
      cases v with
      | null =>
        simp only [jChars]
        rfl
      | bool b =>
        cases b with
        | true => simp only [jChars]; rfl
        | false => simp only [jChars]; rfl
      | num n =>
        simp only [jChars]
        obtain ⟨htake, hdrop⟩ :=
          takeWhile_digits (natChars n.natAbs) rest (natChars_all_digits _) hnd
        by_cases hneg : n < 0
        · rw [intChars, if_pos hneg, List.cons_append, parseF_top_minus, htake, hdrop]
          obtain ⟨d, ds, hds, _⟩ := natChars_head n.natAbs
          have hval : parseDigits (d :: ds) = n.natAbs := by
            rw [← hds]; exact parseDigits_natChars _
          rw [hds]
          simp only [hval]
          have hint : -((n.natAbs : Int)) = n := by omega
          rw [hint]
        · obtain ⟨d, ds, hds, hd⟩ := natChars_head n.natAbs
          rw [intChars, if_neg hneg, hds, List.cons_append,
            parseF_top_digit f d (ds ++ rest) hd]
          have hback : d :: (ds ++ rest) = natChars n.natAbs ++ rest := by
            rw [hds, List.cons_append]
          rw [hback, htake, hdrop, parseDigits_natChars]
          have hint : ((n.natAbs : Int)) = n := by omega
          rw [hint]
      | str s =>
        simp only [jChars, quoteChars, List.cons_append, List.append_assoc,
          List.singleton_append]
        rw [parseF_top_quote, parseStrBody_escStr]
        simp [stringMk_data]
      | arr xs =>
        cases xs with
        | nil =>
          simp only [jChars]
          rfl
        | cons x xs =>
          have hsp2 : spacesOnly (ind ++ gap) := spacesOnly_append hind spacesOnly_gap
          simp only [jChars, List.cons_append, List.append_assoc, List.singleton_append,
            List.nil_append]
          rw [parseF_top_lbracket, skipWs_newline, skipWs_append_spaces _ hind,
            skipWs_append_spaces _ spacesOnly_gap, skipWs_jChars]
          obtain ⟨c, t, hct, hst⟩ := jChars_head (ind ++ gap) x
          rw [hct, List.cons_append]
          simp only [startTok_ne_rbracket hst, if_false, ite_false, if_neg
            (startTok_ne_rbracket hst)]
          have harith : (jChars (ind ++ gap) x).length +
              (itemsChars (ind ++ gap) xs).length < f := by
            simp only [jChars, List.length_cons, List.length_append,
              List.length_singleton] at hlen
            omega
          have hstep := ihB x xs (ind ++ gap) ind rest hsp2 hind harith
          rw [hct, List.cons_append] at hstep
          rw [hstep]
      | obj ps =>
        cases ps with
        | nil =>
          simp only [jChars]
          rfl
        | cons p ps =>
          obtain ⟨k, v⟩ := p
          have hsp2 : spacesOnly (ind ++ gap) := spacesOnly_append hind spacesOnly_gap
          simp only [jChars, List.cons_append, List.append_assoc, List.singleton_append,
            List.nil_append]
          rw [parseF_top_lbrace, skipWs_newline, skipWs_append_spaces _ hind,
            skipWs_append_spaces _ spacesOnly_gap, memberChars_eq, List.cons_append,
            skipWs_cons_nonWs _ (by decide : ¬('"' = ' ' ∨ '"' = '\n' ∨ '"' = '\t' ∨ '"' = '\r'))]
          simp only [if_neg (by decide : ¬('"' = braceR))]
          have harith : (memberChars (ind ++ gap) (k, v)).length +
              (membersChars (ind ++ gap) ps).length < f := by
            simp only [jChars, List.length_cons, List.length_append,
              List.length_singleton] at hlen
            omega
          have hstep := ihC k v ps (ind ++ gap) ind rest hsp2 hind harith
          rw [memberChars_eq, List.cons_append] at hstep
          rw [hstep]
    · -- the elements of a non-empty array up to the closing bracket
      intro x xs indE indC rest hE hC hlen
      have hnd2 : noDigitHead
          (itemsChars indE xs ++ ('\n' :: (indC ++ (']' :: rest)))) := by
        cases xs with
        | nil => exact startTok_not_digit_head _ (by decide)
        | cons y ys =>
          simp only [itemsChars, List.cons_append]
          exact startTok_not_digit_head _ (by decide)
      have hxlen : (jChars indE x).length ≤ f := by omega
      rw [parseF_elems_unfold, ihA x indE _ hE hnd2 hxlen]
      cases xs with
      | nil =>
        simp only [itemsChars, List.nil_append]
        rw [skipWs_newline, skipWs_append_spaces _ hC,
          skipWs_cons_nonWs _ (by decide : ¬(']' = ' ' ∨ ']' = '\n' ∨ ']' = '\t' ∨ ']' = '\r'))]
        simp [if_neg (by decide : ¬(']' = ','))]
      | cons y ys =>
        simp only [itemsChars, List.cons_append, List.append_assoc]
        rw [skipWs_cons_nonWs _ (by decide : ¬(',' = ' ' ∨ ',' = '\n' ∨ ',' = '\t' ∨ ',' = '\r'))]
        simp only [if_pos rfl]
        rw [skipWs_newline, skipWs_append_spaces _ hE, skipWs_jChars]
        have harith : (jChars indE y).length + (itemsChars indE ys).length < f := by
          have h1 := jChars_length_pos indE x
          have h2 : (itemsChars indE (y :: ys)).length =
              2 + indE.length + ((jChars indE y).length + (itemsChars indE ys).length) := by
            simp only [itemsChars, List.length_cons, List.length_append]
            omega
          omega
        rw [ihB y ys indE indC rest hE hC harith]
        simp
    · -- the members of a non-empty object up to the closing brace
      intro k v ps indE indC rest hE hC hlen
      have hmemlen : (memberChars indE (k, v)).length =
          (escStr k.data).length + (jChars indE v).length + 4 := by
        rw [memberChars_eq]
        simp only [List.length_cons, List.length_append]
        omega
      rw [memberChars_eq, List.cons_append, parseF_fields_quote]
      simp only [List.append_assoc, List.cons_append]
      rw [parseStrBody_escStr]
      simp only [List.cons_append]
      rw [skipWs_cons_nonWs _ (by decide : ¬(':' = ' ' ∨ ':' = '\n' ∨ ':' = '\t' ∨ ':' = '\r'))]
      simp only [if_pos rfl]
      rw [skipWs_space, skipWs_jChars]
      have hnd2 : noDigitHead
          (membersChars indE ps ++ ('\n' :: (indC ++ (braceR :: rest)))) := by
        cases ps with
        | nil => exact startTok_not_digit_head _ (by decide)
        | cons q qs =>
          simp only [membersChars, List.cons_append]
          exact startTok_not_digit_head _ (by decide)
      have hvlen : (jChars indE v).length ≤ f := by omega
      rw [ihA v indE _ hE hnd2 hvlen]
      cases ps with
      | nil =>
        simp only [membersChars, List.nil_append]
        rw [skipWs_newline, skipWs_append_spaces _ hC,
          skipWs_cons_nonWs _ (by
            have h1 : ¬(braceR = ' ') := by decide
            have h2 : ¬(braceR = '\n') := by decide
            have h3 : ¬(braceR = '\t') := by decide
            have h4 : ¬(braceR = '\r') := by decide
            tauto)]
        simp [if_neg (by decide : ¬(braceR = ',')), stringMk_data]
      | cons q qs =>
        obtain ⟨k2, v2⟩ := q
        simp only [membersChars, List.cons_append, List.append_assoc, List.nil_append]
        rw [skipWs_cons_nonWs _ (by decide : ¬(',' = ' ' ∨ ',' = '\n' ∨ ',' = '\t' ∨ ',' = '\r'))]
        simp only [if_pos rfl]
        rw [skipWs_newline, skipWs_append_spaces _ hE]
        have harith : (memberChars indE (k2, v2)).length +
            (membersChars indE qs).length < f := by
          have h1 : 1 ≤ (memberChars indE (k, v)).length := by
            rw [memberChars_eq]; simp
          have h2 : (membersChars indE ((k2, v2) :: qs)).length =
              2 + indE.length +
                ((memberChars indE (k2, v2)).length + (membersChars indE qs).length) := by
            simp only [membersChars, List.length_cons, List.length_append]
            omega
          omega
        have hstep := ihC k2 v2 qs indE indC rest hE hC harith
        rw [memberChars_eq, List.cons_append] at hstep
        rw [memberChars_eq, List.cons_append,
          skipWs_cons_nonWs _ (by decide : ¬('"' = ' ' ∨ '"' = '\n' ∨ '"' = '\t' ∨ '"' = '\r')),
          hstep]
        simp [stringMk_data]

/-- Parsing the pretty-printed serialization of any JSON value gives
the value back: the parse capability is a left inverse of the pretty
serializer. -/
theorem parseJsonStr_stringify2 (v : Json) : parseJsonStr (stringify2 v) = .ok v := by
  have hA := (parseF_roundTrip ((jChars [] v).length + 1)).1 v [] []
    spacesOnly_nil trivial (by omega)
  rw [List.append_nil] at hA
  have hskip : skipWs (jChars [] v) = jChars [] v := by
    have h := skipWs_jChars [] v []
    rwa [List.append_nil] at h
  show (match parseF ((jChars [] v).length + 1) .top (skipWs (jChars [] v)) with
        | .error e => .error e
        | .ok (.one v, r) =>
          (match skipWs r with
           | [] => .ok v
           | _ :: _ => .error "Unexpected non-whitespace character after JSON data")
        | .ok _ => .error "Unexpected token in JSON") = Except.ok v
  rw [hskip, hA]
  rfl

/- ## Traversal totality -/

theorem traverseLoop_ok (parts : List String) (r : JsVal) :
    ∃ r2, traverseLoop r parts = Except.ok r2 := by
  induction parts generalizing r with
  | nil => exact ⟨r, rfl⟩
  | cons part rest ih =>
    cases r with
    | undefined => exact ⟨.undefined, rfl⟩
    | val j =>
      cases j with
      | null => exact ⟨.val Json.null, rfl⟩
      | bool b =>
        have heq : traverseLoop (JsVal.val (Json.bool b)) (part :: rest) =
            traverseLoop (getProp (Json.bool b) part) rest := rfl
        rw [heq]; exact ih _
      | num n =>
        have heq : traverseLoop (JsVal.val (Json.num n)) (part :: rest) =
            traverseLoop (getProp (Json.num n) part) rest := rfl
        rw [heq]; exact ih _
      | str s =>
        have heq : traverseLoop (JsVal.val (Json.str s)) (part :: rest) =
            traverseLoop (getProp (Json.str s) part) rest := rfl
        rw [heq]; exact ih _
      | arr xs =>
        have heq : traverseLoop (JsVal.val (Json.arr xs)) (part :: rest) =
            traverseLoop (getProp (Json.arr xs) part) rest := rfl
        rw [heq]; exact ih _
      | obj fs =>
        have heq : traverseLoop (JsVal.val (Json.obj fs)) (part :: rest) =
            traverseLoop (getProp (Json.obj fs) part) rest := rfl
        rw [heq]; exact ih _

theorem traverseLoop_nullish (parts : List String) :
    traverseLoop JsVal.undefined parts = .ok JsVal.undefined ∧
    traverseLoop (JsVal.val Json.null) parts = .ok (JsVal.val Json.null) := by
  cases parts with
  | nil => exact ⟨rfl, rfl⟩
  | cons part rest => exact ⟨rfl, rfl⟩

/- ## Claim theorems -/

/-- C1: on a transport-level success whose body is not valid JSON, the
curl handler returns a success envelope whose `data` is the raw text
body exactly, and no error is surfaced for this fallback. -/
theorem curl_nonjson_body_raw (req : CurlRequest) (resp : TransportResponse) (e : String)
    (h : parseJsonStr resp.bodyText = .error e) :
    curlHandler req (.success resp) =
      .success { status := resp.status, statusText := resp.statusText,
                 headers := resp.headers, data := resp.bodyText } := by
  simp [curlHandler, h]

/-- Witness for C1 at a concrete non-JSON body. -/
theorem curl_nonjson_body_raw_witness :
    parseJsonStr "plain text body" = .error "Unexpected token in JSON" ∧
    curlHandler
      { url := "http://example.com", method := .GET, headers := none,
        body := none, timeout := 10000 }
      (.success { status := 200, statusText := "OK",
                  headers := [("content-type", "text/plain")],
                  bodyText := "plain text body" }) =
      .success { status := 200, statusText := "OK",
                 headers := [("content-type", "text/plain")],
                 data := "plain text body" } :=
  ⟨rfl, curl_nonjson_body_raw _ _ "Unexpected token in JSON" rfl⟩

/-- C2: on a transport-level success whose body is valid JSON, `data`
is the pretty-printed re-serialization of the parsed body, and parsing
`data` again yields the original parsed value (round trip). -/
theorem curl_json_body_pretty_roundtrip (req : CurlRequest) (resp : TransportResponse)
    (v : Json) (h : parseJsonStr resp.bodyText = .ok v) :
    curlHandler req (.success resp) =
      .success { status := resp.status, statusText := resp.statusText,
                 headers := resp.headers, data := stringify2 v } ∧
    parseJsonStr (stringify2 v) = .ok v := by
  refine ⟨?_, parseJsonStr_stringify2 v⟩
  simp [curlHandler, h]

/-- Witness for C2 at a concrete JSON body. -/
theorem curl_json_body_pretty_roundtrip_witness :
    parseJsonStr "[1, 2]" = .ok (Json.arr [Json.num 1, Json.num 2]) ∧
    (curlHandler
        { url := "http://example.com", method := .GET, headers := none,
          body := none, timeout := 10000 }
        (.success { status := 404, statusText := "Not Found", headers := [],
                    bodyText := "[1, 2]" }) =
      .success { status := 404, statusText := "Not Found", headers := [],
                 data := stringify2 (Json.arr [Json.num 1, Json.num 2]) } ∧
      parseJsonStr (stringify2 (Json.arr [Json.num 1, Json.num 2])) =
        .ok (Json.arr [Json.num 1, Json.num 2])) :=
  ⟨rfl, curl_json_body_pretty_roundtrip _ _ _ rfl⟩

/-- C3: the parse-json tool fails exactly when the document fails to
parse; on a parse failure the message is the parse-error text and the
result does not depend on the path (no traversal); on a parse success
the tool succeeds for every path. -/
theorem parse_json_failure_iff (json : String) (path : Option String) :
    ((∃ m, parseJsonTool json path = .err m) ↔ (∃ e, parseJsonStr json = .error e)) ∧
    (∀ e, parseJsonStr json = .error e →
      parseJsonTool json path = .err ("Error parsing JSON: " ++ e)) ∧
    (∀ d, parseJsonStr json = .ok d → ∃ t, parseJsonTool json path = .ok t) := by
  have herr : ∀ e, parseJsonStr json = .error e →
      parseJsonTool json path = .err ("Error parsing JSON: " ++ e) := by
    intro e he
    unfold parseJsonTool
    rw [he]
  have hok : ∀ d, parseJsonStr json = .ok d → ∃ t, parseJsonTool json path = .ok t := by
    intro d hd
    unfold parseJsonTool
    rw [hd]
    cases path with
    | none => exact ⟨_, rfl⟩
    | some p =>
      by_cases hp : p = ""
      · refine ⟨serializeResult (.val d), ?_⟩
        show (if p = "" then ToolResult.ok (serializeResult (.val d))
              else
                match traverseLoop (.val d) (jsSplitDot p) with
                | .error e =>
                  ToolResult.err ("Error extracting data with path \"" ++ p ++ "\": " ++ e)
                | .ok r => ToolResult.ok (serializeResult r)) =
          ToolResult.ok (serializeResult (.val d))
        rw [if_pos hp]
      · obtain ⟨r2, hr⟩ := traverseLoop_ok (jsSplitDot p) (.val d)
        refine ⟨serializeResult r2, ?_⟩
        show (if p = "" then ToolResult.ok (serializeResult (.val d))
              else
                match traverseLoop (.val d) (jsSplitDot p) with
                | .error e =>
                  ToolResult.err ("Error extracting data with path \"" ++ p ++ "\": " ++ e)
                | .ok r => ToolResult.ok (serializeResult r)) =
          ToolResult.ok (serializeResult r2)
        rw [if_neg hp, hr]
  refine ⟨⟨?_, ?_⟩, herr, hok⟩
  · rintro ⟨m, hm⟩
    cases hp : parseJsonStr json with
    | error e => exact ⟨e, rfl⟩
    | ok d =>
      obtain ⟨t, ht⟩ := hok d hp
      rw [ht] at hm
      exact ToolResult.noConfusion hm
  · rintro ⟨e, he⟩
    exact ⟨_, herr e he⟩

/-- Witness for C3 at a malformed document and at a parsed document. -/
theorem parse_json_failure_iff_witness :
    parseJsonTool "not json" (some "a.b") =
      .err ("Error parsing JSON: " ++ "Unexpected token in JSON") ∧
    ∃ t, parseJsonTool "[0]" (some "a.b") = .ok t :=
  ⟨(parse_json_failure_iff "not json" (some "a.b")).2.1 "Unexpected token in JSON" rfl,
   (parse_json_failure_iff "[0]" (some "a.b")).2.2 (Json.arr [Json.num 0]) rfl⟩

/-- C4: the traversal loop is total: it never reaches the error
branch; a null or undefined current value stops traversal with itself
as the result; indexing scalars or missing keys yields absence. -/
theorem path_traversal_total (r : JsVal) (parts : List String) :
    (∃ r2, traverseLoop r parts = Except.ok r2) ∧
    traverseLoop JsVal.undefined parts = .ok JsVal.undefined ∧
    traverseLoop (JsVal.val Json.null) parts = .ok (JsVal.val Json.null) ∧
    (∀ (n : Int) (key : String), getProp (Json.num n) key = JsVal.undefined) ∧
    (∀ (b : Bool) (key : String), getProp (Json.bool b) key = JsVal.undefined) ∧
    (∀ (s : String) (key : String), getProp (Json.str s) key = JsVal.undefined) ∧
    (∀ (fs : List (String × Json)) (key : String), (∀ kv ∈ fs, kv.1 ≠ key) →
      getProp (Json.obj fs) key = JsVal.undefined) ∧
    traverseLoop (JsVal.val (Json.obj [("a", Json.num 1)])) (jsSplitDot "a.b.c") =
      .ok JsVal.undefined := by
  refine ⟨traverseLoop_ok parts r, (traverseLoop_nullish parts).1,
    (traverseLoop_nullish parts).2, fun n key => rfl, fun b key => rfl,
    fun s key => rfl, ?_, rfl⟩
  intro fs key hmiss
  show lookupField fs key = JsVal.undefined
  induction fs with
  | nil => rfl
  | cons kv fs ih =>
    obtain ⟨k, v⟩ := kv
    rw [lookupField, if_neg (hmiss (k, v) (List.mem_cons_self _ _))]
    exact ih fun kv hkv => hmiss kv (List.mem_cons_of_mem _ hkv)

/-- Witness for C4 at a concrete scalar-mid-path document and a
concrete missing key. -/
theorem path_traversal_total_witness :
    traverseLoop (JsVal.val (Json.obj [("a", Json.num 1)])) (jsSplitDot "a.b.c") =
      .ok JsVal.undefined ∧
    getProp (Json.obj [("a", Json.num 1)]) "x" = JsVal.undefined :=
  ⟨(path_traversal_total JsVal.undefined []).2.2.2.2.2.2.2,
   (path_traversal_total JsVal.undefined []).2.2.2.2.2.2.1 [("a", Json.num 1)] "x"
     (by intro kv hkv; simp at hkv; subst hkv; decide)⟩

/-- C5: a GET request never attaches a body; a non-GET request with a
string body sends it unchanged, and with a non-string body sends its
compact JSON serialization. -/
theorem curl_body_attachment (req : CurlRequest) :
    (req.method = HttpMethod.GET → (buildOptions req).body = none) ∧
    (∀ s, req.method ≠ HttpMethod.GET → req.body = some (Json.str s) →
      (buildOptions req).body = some s) ∧
    (∀ b, req.method ≠ HttpMethod.GET → req.body = some b → (∀ s, b ≠ Json.str s) →
      (buildOptions req).body = some (stringifyCompact b)) := by
  refine ⟨?_, ?_, ?_⟩
  · intro hm
    cases hb : req.body with
    | none => simp [buildOptions, hb]
    | some b => simp [buildOptions, hb, hm]
  · intro s hm hb
    simp [buildOptions, hb, hm, encodeBody]
  · intro b hm hb hne
    cases b with
    | str s => exact absurd rfl (hne s)
    | null => simp [buildOptions, hb, hm, encodeBody]
    | bool x => simp [buildOptions, hb, hm, encodeBody]
    | num x => simp [buildOptions, hb, hm, encodeBody]
    | arr x => simp [buildOptions, hb, hm, encodeBody]
    | obj x => simp [buildOptions, hb, hm, encodeBody]

/-- Witness for C5 at concrete GET, string-body and non-string-body
requests. -/
theorem curl_body_attachment_witness :
    (buildOptions
        { url := "http://a.example", method := .GET, headers := none,
          body := some (Json.str "ignored"), timeout := 10000 }).body = none ∧
    (buildOptions
        { url := "http://a.example", method := .POST, headers := none,
          body := some (Json.str "payload"), timeout := 10000 }).body = some "payload" ∧
    (buildOptions
        { url := "http://a.example", method := .PUT, headers := none,
          body := some (Json.num 5), timeout := 10000 }).body =
      some (stringifyCompact (Json.num 5)) :=
  ⟨(curl_body_attachment _).1 rfl,
   (curl_body_attachment _).2.1 "payload" (by decide) rfl,
   (curl_body_attachment _).2.2 (Json.num 5) (by decide) rfl
     (fun s h => Json.noConfusion h)⟩

/-- C6: a transport-level failure produces the failure envelope with
the prefixed transport message, and never a response envelope. -/
theorem curl_transport_failure (req : CurlRequest) (reason : String) :
    curlHandler req (.failure reason) = .failure ("Error making request: " ++ reason) ∧
    ∀ env, curlHandler req (.failure reason) ≠ CurlResult.success env := by
  refine ⟨rfl, ?_⟩
  intro env h
  exact CurlResult.noConfusion h

/-- C7: caller-supplied headers are used verbatim; when omitted,
exactly the two-entry JSON default map is used. -/
theorem curl_headers_resolution (req : CurlRequest) :
    (∀ h, req.headers = some h → (buildOptions req).headers = h) ∧
    (req.headers = none →
      (buildOptions req).headers =
        [("Content-Type", "application/json"), ("Accept", "application/json")]) := by
  constructor
  · intro h hh
    cases hb : req.body with
    | none => simp [buildOptions, hb, hh]
    | some b =>
      by_cases hm : req.method = HttpMethod.GET
      · simp [buildOptions, hb, hh, hm]
      · simp [buildOptions, hb, hh, hm]
  · intro hh
    cases hb : req.body with
    | none => simp [buildOptions, hb, hh, defaultHeaders]
    | some b =>
      by_cases hm : req.method = HttpMethod.GET
      · simp [buildOptions, hb, hh, hm, defaultHeaders]
      · simp [buildOptions, hb, hh, hm, defaultHeaders]

/-- Witness for C7 at a concrete supplied header map and at an omitted
one. -/
theorem curl_headers_resolution_witness :
    (buildOptions
        { url := "http://a.example", method := .POST,
          headers := some [("X-Custom", "1")], body := none, timeout := 10000 }).headers =
      [("X-Custom", "1")] ∧
    (buildOptions
        { url := "http://a.example", method := .GET, headers := none,
          body := none, timeout := 10000 }).headers =
      [("Content-Type", "application/json"), ("Accept", "application/json")] :=
  ⟨(curl_headers_resolution _).1 [("X-Custom", "1")] rfl,
   (curl_headers_resolution _).2 rfl⟩

/-- C8: every transport-level success, 4xx/5xx statuses included,
yields a success envelope with status, status text and headers taken
from the transport response unconditionally. -/
theorem curl_success_envelope (req : CurlRequest) (resp : TransportResponse) :
    ∃ env, curlHandler req (.success resp) = .success env ∧
      env.status = resp.status ∧ env.statusText = resp.statusText ∧
      env.headers = resp.headers := by
  exact ⟨_, rfl, rfl, rfl, rfl⟩

/-- C9: a structured extraction result is pretty-printed as JSON, a
primitive one is stringified as plain text; the documented example
yields the plain text 42. -/
theorem extract_result_serialization :
    (∀ j : Json, jsTypeof (JsVal.val j) = "object" →
      serializeResult (JsVal.val j) = stringify2 j) ∧
    (∀ r : JsVal, jsTypeof r ≠ "object" → serializeResult r = jsToString r) ∧
    parseJsonTool "\x7b\x22a\x22:\x7b\x22b\x22:42\x7d\x7d" (some "a.b") = .ok "42" := by
  refine ⟨?_, ?_, ?_⟩
  · intro j hj
    simp [serializeResult, hj]
  · intro r hr
    cases r with
    | undefined => rfl
    | val j => simp [serializeResult, hr]
  · have h1 : parseJsonTool "\x7b\x22a\x22:\x7b\x22b\x22:42\x7d\x7d" (some "a.b") =
        .ok (serializeResult (.val (Json.num 42))) := rfl
    rw [h1]
    have h2 : serializeResult (JsVal.val (Json.num 42)) =
        jsToString (JsVal.val (Json.num 42)) := by
      simp [serializeResult, jsTypeof]
    rw [h2]
    show ToolResult.ok (String.mk (jsPlainChars (Json.num 42))) = ToolResult.ok "42"
    have h3 : jsPlainChars (Json.num 42) = intChars 42 := by simp [jsPlainChars]
    rw [h3]
    rfl

/-- Witness for C9 at a concrete structured value and a concrete
primitive. -/
theorem extract_result_serialization_witness :
    serializeResult (JsVal.val (Json.obj [])) = stringify2 (Json.obj []) ∧
    serializeResult (JsVal.val (Json.num 7)) = jsToString (JsVal.val (Json.num 7)) :=
  ⟨extract_result_serialization.1 (Json.obj []) rfl,
   extract_result_serialization.2.1 (JsVal.val (Json.num 7)) (by decide)⟩

/-- C10: for a non-GET request a supplied JSON null body counts as
supplied: the outbound body is the four-character text null; and a
body is omitted exactly when the input body is undefined. -/
theorem curl_null_body_serialized (req : CurlRequest) (hm : req.method ≠ HttpMethod.GET) :
    (req.body = some Json.null → (buildOptions req).body = some "null") ∧
    ((buildOptions req).body = none ↔ req.body = none) := by
  have hnull : stringifyCompact Json.null = "null" := by
    show String.mk (cChars Json.null) = "null"
    rw [show cChars Json.null = ['n', 'u', 'l', 'l'] from by simp [cChars]]
  constructor
  · intro hb
    simp [buildOptions, hb, hm, encodeBody, hnull]
  · constructor
    · intro hopt
      cases hb : req.body with
      | none => rfl
      | some b =>
        rw [show (buildOptions req).body = some (encodeBody b) from by
          simp [buildOptions, hb, hm]] at hopt
        exact Option.noConfusion hopt
    · intro hb
      simp [buildOptions, hb]

/-- Witness for C10 at a concrete POST request with a JSON null
body. -/
theorem curl_null_body_serialized_witness :
    (buildOptions
        { url := "http://a.example", method := .POST, headers := none,
          body := some Json.null, timeout := 10000 }).body = some "null" :=
  (curl_null_body_serialized _ (by decide)).1 rfl

end CurlMcp
